import Mathlib

/-!
Verification of `migrations/1_initial_migration.js`.

A shallow embedding of the Truffle migration script that deploys the `Oracle`
contract with the LINK token address of the active network.

The script is JavaScript, so the embedding fixes the fragment of the language
semantics the script relies on:

* values (`JSVal`): `undefined`, strings, contract artifacts, the realm
  intrinsics reachable through `Object.prototype`, and foreign objects owned by
  the deployer;
* an object literal (`JSObject`) is a list of own data properties whose
  prototype is `Object.prototype`;
* property access `o[k]` (`JSObject.get`) consults the own properties first and
  the prototype second, and yields `undefined` when both miss;
* a call either completes normally with a value or throws a value
  (`Except JSVal JSVal`).

`JSObject.get` and `migration` describe one run in the realm as loaded, where
`Object.prototype` holds its twelve built-in properties. `Object.prototype` is a
live object that the code of a deployer can write to, so what several runs do is
described by `JSObject.getIn`, `migrationIn` and `runs`, where the prototype is
part of the state a `deploy` call can change and a read goes through its current
properties; `migrationIn_loaded` shows that the two agree while the prototype is
as loaded.
-/

namespace Migration

/-- JavaScript values that can occur while the migration script runs. -/
inductive JSVal where
  /-- The `undefined` value. -/
  | undefined
  /-- A primitive string. -/
  | string (s : String)
  /-- A contract abstraction returned by `artifacts.require(name)`. -/
  | contract (name : String)
  /-- A realm intrinsic, named as in ECMAScript, for example `Object.prototype`. -/
  | intrinsic (name : String)
  /-- An object owned by the deployer (a promise, a handle, an error object). -/
  | foreign (id : Nat)
  deriving DecidableEq, Repr

/-- Completions, `Except JSVal JSVal`, can be compared. -/
instance : DecidableEq (Except JSVal JSVal)
  | .ok a, .ok b => if h : a = b then isTrue (by rw [h]) else isFalse (by simpa using h)
  | .error a, .error b => if h : a = b then isTrue (by rw [h]) else isFalse (by simpa using h)
  | .ok _, .error _ => isFalse (by simp)
  | .error _, .ok _ => isFalse (by simp)

/-- An object created by an object literal: its own data properties in source
order. Its prototype is `Object.prototype`. -/
structure JSObject where
  props : List (String × JSVal)
  deriving DecidableEq, Repr

/-- The properties every object literal inherits from `Object.prototype`
(ECMAScript, "Properties of the Object Prototype Object" and its annex of
additional properties), with the value a property read on the literal produces.
This is the language runtime, not code of the script. All of them are data properties
holding built-in functions, except `__proto__`, an accessor whose getter returns
the prototype of the receiver, which for an object literal is `Object.prototype`
itself. -/
def objectPrototype : List (String × JSVal) :=
  [ ("constructor", .intrinsic "Object"),
    ("__defineGetter__", .intrinsic "Object.prototype.__defineGetter__"),
    ("__defineSetter__", .intrinsic "Object.prototype.__defineSetter__"),
    ("hasOwnProperty", .intrinsic "Object.prototype.hasOwnProperty"),
    ("__lookupGetter__", .intrinsic "Object.prototype.__lookupGetter__"),
    ("__lookupSetter__", .intrinsic "Object.prototype.__lookupSetter__"),
    ("isPrototypeOf", .intrinsic "Object.prototype.isPrototypeOf"),
    ("propertyIsEnumerable", .intrinsic "Object.prototype.propertyIsEnumerable"),
    ("toString", .intrinsic "Object.prototype.toString"),
    ("valueOf", .intrinsic "Object.prototype.valueOf"),
    ("__proto__", .intrinsic "Object.prototype"),
    ("toLocaleString", .intrinsic "Object.prototype.toLocaleString") ]

/-- Names of the properties inherited from `Object.prototype`. -/
def inheritedKeys : List String := objectPrototype.map Prod.fst

/-- Property read `o[k]` with a string key: the own property when there is one,
else the property inherited from `Object.prototype`, else `undefined`. The result
is a completion; `.error` would be a thrown exception. -/
def JSObject.get (o : JSObject) (k : String) : Except JSVal JSVal :=
  match o.props.lookup k with
  | some v => .ok v
  | none =>
    match objectPrototype.lookup k with
    | some v => .ok v
    | none => .ok .undefined

/-- The table `const linkToken = { ... }`. -/
def linkToken : JSObject :=
  { props :=
      [ ("development", .string "0x514910771AF9Ca656af840dff83E8264EcF986CA"),
        ("test", .string "0x514910771AF9Ca656af840dff83E8264EcF986CA"),
        ("mainnet", .string "0x514910771AF9Ca656af840dff83E8264EcF986CA"),
        ("ropsten", .string "0x20fE562d797A42Dcb3399062AE9546cd06f63280"),
        ("rinkeby", .string "0x01BE23585060835E02B77ef475b0Cc51aA1e0709"),
        ("kovan", .string "0xa36085F69e2889c224210F603D836748e7dC0088") ] }

/-- The binding `const Oracle = artifacts.require("Oracle")`. -/
def Oracle : JSVal := .contract "Oracle"

/-- The six keys written in the `linkToken` literal. -/
def knownKeys : List String := linkToken.props.map Prod.fst

/-- The deployer handed to the migration by the runner: its `network` attribute
and its `deploy` operation. `deploy` receives the argument list, may change the
state `σ` the deployer owns (the chain, its own bookkeeping), and either returns
a value or throws one. -/
structure Deployer (σ : Type) where
  network : String
  deploy : List JSVal → σ → Except JSVal JSVal × σ

/-- Everything a run of the migration can observe or change: the module-level
`linkToken` binding, the state owned by the deployer, and the trace of argument
lists of the `deploy` calls made so far. -/
structure World (σ : Type) where
  linkToken : JSObject
  ext : σ
  calls : List (List JSVal)

/-- The exported function
`function(deployer) { deployer.deploy(Oracle, linkToken[deployer.network]); }`.
The arguments are evaluated left to right, `deploy` is called once with them, its
result is dropped and the function body ends without a `return`. -/
def migration {σ : Type} (deployer : Deployer σ) (w : World σ) :
    Except JSVal JSVal × World σ :=
  match w.linkToken.get deployer.network with
  | .error e => (.error e, w)
  | .ok address =>
    let args := [Oracle, address]
    let r := deployer.deploy args w.ext
    let w' : World σ := { w with ext := r.2, calls := w.calls ++ [args] }
    match r.1 with
    | .error e => (.error e, w')
    | .ok _ => (.ok .undefined, w')

/-- A property of the live `Object.prototype` as a read through an object literal
sees it: its getter applied to the receiver, giving the completion of the read and
the receiver as the getter leaves it. -/
abbrev Slot : Type := JSObject → Except JSVal JSVal × JSObject

/-- A property whose read yields `v` and changes nothing: a data property, or a
built-in accessor such as `__proto__`. -/
def Slot.data (v : JSVal) : Slot := fun o => (.ok v, o)

/-- The own properties of the live `Object.prototype`, most recently defined first.
It is shared by the whole realm: any code, a `deploy` call included, can define,
replace or remove properties on it. -/
abbrev Prototype : Type := List (String × Slot)

/-- The object `Object.prototype` as the realm creates it, before any code of the
deployer has run. -/
def loadedPrototype : Prototype := objectPrototype.map fun p => (p.1, Slot.data p.2)

/-- Property read `o[k]` in a realm whose `Object.prototype` currently is `proto`:
the own property when there is one, else the inherited property, whose getter runs
with `o` as receiver, else `undefined`. -/
def JSObject.getIn (proto : Prototype) (o : JSObject) (k : String) :
    Except JSVal JSVal × JSObject :=
  match o.props.lookup k with
  | some v => (.ok v, o)
  | none =>
    match proto.lookup k with
    | some getter => getter o
    | none => (.ok .undefined, o)

/-- Assignment `o[k] = v` where `k` is an own property of the object literal `o`
(the properties of a literal are writable data properties): the property is
rebound and the others are kept. -/
def JSObject.rebind (o : JSObject) (k : String) (v : JSVal) : JSObject :=
  { props := o.props.map fun p => if p.1 = k then (p.1, v) else p }

/-- The exported function in a realm with a live `Object.prototype`. The state the
deployer can change is the pair of that prototype and the state it owns; the read
`linkToken[deployer.network]` goes through the current prototype. -/
def migrationIn {σ : Type} (deployer : Deployer (Prototype × σ))
    (w : World (Prototype × σ)) : Except JSVal JSVal × World (Prototype × σ) :=
  let read := w.linkToken.getIn w.ext.1 deployer.network
  match read.1 with
  | .error e => (.error e, { w with linkToken := read.2 })
  | .ok address =>
    let args := [Oracle, address]
    let r := deployer.deploy args w.ext
    let w' : World (Prototype × σ) :=
      { linkToken := read.2, ext := r.2, calls := w.calls ++ [args] }
    match r.1 with
    | .error e => (.error e, w')
    | .ok _ => (.ok .undefined, w')

/-- The world left by running the migration once for each deployer of a list, in
order, whether or not the individual runs throw. What one run leaves, the
prototype included, is what the next run starts from. -/
def runs {σ : Type} (ds : List (Deployer (Prototype × σ)))
    (w : World (Prototype × σ)) : World (Prototype × σ) :=
  ds.foldl (fun acc d => (migrationIn d acc).2) w

/-- The completion of the lookup `linkToken[k]` in a world. -/
def World.read {σ : Type} (w : World (Prototype × σ)) (k : String) : Except JSVal JSVal :=
  (w.linkToken.getIn w.ext.1 k).1

/-- The module as loaded: the table of the literal, `Object.prototype` as the realm
creates it. -/
def loaded {σ : Type} (s : σ) (cs : List (List JSVal)) : World (Prototype × σ) :=
  { linkToken := linkToken, ext := (loadedPrototype, s), calls := cs }

/-- A deployer on network `__proto__` whose `deploy` writes `foo = "x"` on its
second argument, which on that network is `Object.prototype`. -/
def prototypeWriter : Deployer (Prototype × Unit) :=
  { network := "__proto__",
    deploy := fun args st =>
      if args = [Oracle, .intrinsic "Object.prototype"] then
        (.ok .undefined, (("foo", Slot.data (.string "x")) :: st.1, st.2))
      else (.ok .undefined, st) }

/-- A deployer on network `__proto__` whose `deploy` defines on its second
argument, `Object.prototype`, an accessor `bar` whose getter assigns
`this.mainnet = "0x0"` and returns `undefined`. -/
def getterInstaller : Deployer (Prototype × Unit) :=
  { network := "__proto__",
    deploy := fun args st =>
      if args = [Oracle, .intrinsic "Object.prototype"] then
        (.ok .undefined,
          (("bar", fun o => (.ok .undefined, o.rebind "mainnet" (.string "0x0"))) :: st.1, st.2))
      else (.ok .undefined, st) }

/-- A deployer on the given network whose `deploy` returns `undefined` and changes
nothing. -/
def quietDeployer (network : String) : Deployer (Prototype × Unit) :=
  { network := network, deploy := fun _ st => (.ok .undefined, st) }

/-- A hexadecimal digit: `0-9`, `a-f` or `A-F`. -/
def isHexDigit (c : Char) : Bool :=
  ('0' ≤ c && c ≤ '9') || ('a' ≤ c && c ≤ 'f') || ('A' ≤ c && c ≤ 'F')

/-- A well-formed address string: 42 characters, the first two `0x`, the other
forty hexadecimal digits. -/
def wellFormedAddress (s : String) : Bool :=
  s.length == 42 && s.data.take 2 == ['0', 'x'] && (s.data.drop 2).all isHexDigit

/-! The address table. -/

/-- C1: each of the six known identifiers looked up in `linkToken` gives exactly
the literal address written for it in the source. -/
theorem linkToken_get_known :
    linkToken.get "development" = .ok (.string "0x514910771AF9Ca656af840dff83E8264EcF986CA") ∧
    linkToken.get "test" = .ok (.string "0x514910771AF9Ca656af840dff83E8264EcF986CA") ∧
    linkToken.get "mainnet" = .ok (.string "0x514910771AF9Ca656af840dff83E8264EcF986CA") ∧
    linkToken.get "ropsten" = .ok (.string "0x20fE562d797A42Dcb3399062AE9546cd06f63280") ∧
    linkToken.get "rinkeby" = .ok (.string "0x01BE23585060835E02B77ef475b0Cc51aA1e0709") ∧
    linkToken.get "kovan" = .ok (.string "0xa36085F69e2889c224210F603D836748e7dC0088") := by
  refine ⟨?_, ?_, ?_, ?_, ?_, ?_⟩ <;> rfl

/-- A key that heads no entry of an association list is not found by `lookup`. -/
theorem lookup_eq_none_of_not_mem {β : Type} (k : String) (l : List (String × β))
    (h : k ∉ l.map Prod.fst) : l.lookup k = none := by
  induction l with
  | nil => rfl
  | cons p l ih =>
    obtain ⟨k', v⟩ := p
    simp only [List.map_cons, List.mem_cons, not_or] at h
    have hne : (k == k') = false := by simpa using h.1
    simp only [List.lookup_cons, hne]
    exact ih h.2

/-- A key that heads an entry of an association list is found by `lookup`, with a
value stored in the list. -/
theorem lookup_eq_some_of_mem {β : Type} (k : String) (l : List (String × β))
    (h : k ∈ l.map Prod.fst) : ∃ v, l.lookup k = some v ∧ (k, v) ∈ l := by
  induction l with
  | nil => simp at h
  | cons p l ih =>
    obtain ⟨k', v⟩ := p
    by_cases hk : k = k'
    · subst hk
      exact ⟨v, by simp, by simp⟩
    · have hne : (k == k') = false := by simpa using hk
      have hmem : k ∈ l.map Prod.fst := by
        simp only [List.map_cons, List.mem_cons] at h
        rcases h with h | h
        · exact absurd h hk
        · exact h
      obtain ⟨u, hu, hin⟩ := ih hmem
      exact ⟨u, by simp only [List.lookup_cons, hne]; exact hu, List.mem_cons_of_mem _ hin⟩

/-- No property inherited from `Object.prototype` reads as `undefined`. -/
theorem objectPrototype_values_defined :
    ∀ p ∈ objectPrototype, p.2 ≠ JSVal.undefined := by
  decide

/-- A property read never throws. -/
theorem get_ok (o : JSObject) (k : String) : ∃ v, o.get k = .ok v := by
  unfold JSObject.get
  cases o.props.lookup k with
  | some v => exact ⟨v, rfl⟩
  | none =>
    cases objectPrototype.lookup k with
    | some v => exact ⟨v, rfl⟩
    | none => exact ⟨.undefined, rfl⟩

/-- A key outside the literal reads as `undefined` exactly when `Object.prototype`
has no property of that name. -/
theorem get_unknown_iff (k : String) (hk : k ∉ knownKeys) :
    linkToken.get k = .ok .undefined ↔ k ∉ inheritedKeys := by
  have hown : linkToken.props.lookup k = none := lookup_eq_none_of_not_mem k _ hk
  unfold JSObject.get
  rw [hown]
  constructor
  · intro h hin
    obtain ⟨v, hv, hmem⟩ := lookup_eq_some_of_mem k objectPrototype hin
    rw [hv] at h
    have hdef := objectPrototype_values_defined (k, v) hmem
    simp only [Except.ok.injEq] at h
    exact hdef h
  · intro h
    rw [lookup_eq_none_of_not_mem k objectPrototype h]

/-- One run from the module's initial table makes one `deploy` call with the
arguments `Oracle` and the value read from the table. -/
theorem migration_calls {σ : Type} (d : Deployer σ) (s : σ) (cs : List (List JSVal))
    (v : JSVal) (hv : linkToken.get d.network = .ok v) :
    (migration d ⟨linkToken, s, cs⟩).2.calls = cs ++ [[Oracle, v]] := by
  unfold migration
  simp only [hv]
  cases (d.deploy [Oracle, v] s).1 <;> rfl

/-- The completion of one run is the completion of the `deploy` call with its
value replaced by `undefined`. -/
theorem migration_result {σ : Type} (d : Deployer σ) (s : σ) (cs : List (List JSVal))
    (v : JSVal) (hv : linkToken.get d.network = .ok v) :
    (migration d ⟨linkToken, s, cs⟩).1 =
      match (d.deploy [Oracle, v] s).1 with
      | .error e => .error e
      | .ok _ => .ok .undefined := by
  unfold migration
  simp only [hv]
  cases (d.deploy [Oracle, v] s).1 <;> rfl

/-- One run leaves the `linkToken` binding as it found it. -/
theorem migration_linkToken {σ : Type} (d : Deployer σ) (w : World σ) :
    (migration d w).2.linkToken = w.linkToken := by
  unfold migration
  cases w.linkToken.get d.network with
  | error e => rfl
  | ok v =>
    simp only
    cases (d.deploy [Oracle, v] w.ext).1 <;> rfl

/-- Looking a key up after mapping the values is mapping the value found. -/
theorem lookup_map_snd {β γ : Type} (f : β → γ) (k : String) (l : List (String × β)) :
    (l.map fun p => (p.1, f p.2)).lookup k = (l.lookup k).map f := by
  induction l with
  | nil => rfl
  | cons p l ih =>
    obtain ⟨k', v⟩ := p
    simp only [List.map_cons, List.lookup_cons]
    cases (k == k') with
    | true => rfl
    | false => exact ih

/-- With `Object.prototype` as loaded, a read is the read of `JSObject.get` and
leaves the receiver alone. -/
theorem getIn_loaded (o : JSObject) (k : String) :
    o.getIn loadedPrototype k = (o.get k, o) := by
  unfold JSObject.getIn JSObject.get loadedPrototype
  rw [lookup_map_snd]
  cases o.props.lookup k with
  | some v => rfl
  | none =>
    cases objectPrototype.lookup k with
    | some v => rfl
    | none => rfl

/-- A known key is an own property: whatever `Object.prototype` holds, the read is
the read of `JSObject.get` and leaves the table alone. -/
theorem getIn_known (proto : Prototype) (k : String) (hk : k ∈ knownKeys) :
    linkToken.getIn proto k = (linkToken.get k, linkToken) := by
  obtain ⟨v, hv, _⟩ := lookup_eq_some_of_mem k linkToken.props hk
  unfold JSObject.getIn JSObject.get
  simp only [hv]

/-- With `Object.prototype` as loaded, a run in the live realm is `migration`. -/
theorem migrationIn_loaded {σ : Type} (d : Deployer (Prototype × σ))
    (w : World (Prototype × σ)) (hw : w.ext.1 = loadedPrototype) :
    migrationIn d w = migration d w := by
  unfold migrationIn migration
  rw [hw, getIn_loaded]

/-- Runs whose `deploy` calls leave the loaded `Object.prototype` as it is keep the
table and the prototype. -/
theorem runs_loaded {σ : Type} (ds : List (Deployer (Prototype × σ)))
    (h : ∀ d ∈ ds, ∀ args t, (d.deploy args (loadedPrototype, t)).2.1 = loadedPrototype)
    (w : World (Prototype × σ)) (ht : w.linkToken = linkToken)
    (hp : w.ext.1 = loadedPrototype) :
    (runs ds w).linkToken = linkToken ∧ (runs ds w).ext.1 = loadedPrototype := by
  induction ds generalizing w with
  | nil => exact ⟨ht, hp⟩
  | cons d ds ih =>
    show (runs ds (migrationIn d w).2).linkToken = linkToken ∧
      (runs ds (migrationIn d w).2).ext.1 = loadedPrototype
    have hd := h d (List.mem_cons_self d ds)
    apply ih (fun d' hd' => h d' (List.mem_cons_of_mem d hd'))
    · rw [migrationIn_loaded d w hp, migration_linkToken, ht]
    · rw [migrationIn_loaded d w hp]
      obtain ⟨v, hv⟩ := get_ok w.linkToken d.network
      have hext : (migration d w).2.ext = (d.deploy [Oracle, v] w.ext).2 := by
        unfold migration
        simp only [hv]
        cases (d.deploy [Oracle, v] w.ext).1 <;> rfl
      rw [hext]
      have hpair : w.ext = (loadedPrototype, w.ext.2) := by rw [← hp]
      rw [hpair]
      exact hd _ _

/-! The migration function. -/

/-- C2: for every deployer, one run of the exported function makes exactly one
`deploy` call, applied once to the deployer's state, with exactly the two
arguments `Oracle` and the value of `linkToken[deployer.network]`; for a deployer
on `kovan` the call is `deploy(Oracle, "0xa36085F69e2889c224210F603D836748e7dC0088")`. -/
theorem migration_one_deploy_call :
    (∀ (σ : Type) (d : Deployer σ) (s : σ) (cs : List (List JSVal)),
      ∃ v, linkToken.get d.network = .ok v ∧
        (migration d ⟨linkToken, s, cs⟩).2.calls = cs ++ [[Oracle, v]] ∧
        (migration d ⟨linkToken, s, cs⟩).2.ext = (d.deploy [Oracle, v] s).2) ∧
    (∀ (σ : Type) (deploy : List JSVal → σ → Except JSVal JSVal × σ) (s : σ)
        (cs : List (List JSVal)),
      (migration ⟨"kovan", deploy⟩ ⟨linkToken, s, cs⟩).2.calls =
        cs ++ [[Oracle, .string "0xa36085F69e2889c224210F603D836748e7dC0088"]]) := by
  refine ⟨?_, ?_⟩
  · intro σ d s cs
    obtain ⟨v, hv⟩ := get_ok linkToken d.network
    refine ⟨v, hv, migration_calls d s cs v hv, ?_⟩
    unfold migration
    simp only [hv]
    cases (d.deploy [Oracle, v] s).1 <;> rfl
  · intro σ deploy s cs
    exact migration_calls ⟨"kovan", deploy⟩ s cs _ rfl

/-- C3 as stated fails: `constructor`, `toString` and `__proto__` are none of the
six keys, yet reading them from `linkToken` gives an inherited value, not
`undefined`. -/
theorem linkToken_get_inherited_not_undefined :
    "constructor" ∉ knownKeys ∧ "toString" ∉ knownKeys ∧ "__proto__" ∉ knownKeys ∧
    linkToken.get "constructor" = .ok (.intrinsic "Object") ∧
    linkToken.get "toString" = .ok (.intrinsic "Object.prototype.toString") ∧
    linkToken.get "__proto__" = .ok (.intrinsic "Object.prototype") ∧
    linkToken.get "constructor" ≠ .ok .undefined ∧
    linkToken.get "toString" ≠ .ok .undefined ∧
    linkToken.get "__proto__" ≠ .ok .undefined := by
  refine ⟨by decide, by decide, by decide, rfl, rfl, rfl, by decide, by decide, by decide⟩

/-- C3, amended: reading any string key from `linkToken` throws nothing, and a key
that is none of the six known keys reads as `undefined` exactly when it is not
the name of a property inherited from `Object.prototype`. -/
theorem linkToken_get_unknown (k : String) :
    (∃ v, linkToken.get k = .ok v) ∧
    (k ∉ knownKeys → (linkToken.get k = .ok .undefined ↔ k ∉ inheritedKeys)) :=
  ⟨get_ok linkToken k, get_unknown_iff k⟩

/-- C3, amended, at the near-misses `Mainnet` and `mainnet-fork`: each is neither
a known key nor an inherited name, and each reads as `undefined`. -/
theorem linkToken_get_unknown_witness :
    ("Mainnet" ∉ knownKeys ∧ "Mainnet" ∉ inheritedKeys ∧
      linkToken.get "Mainnet" = .ok .undefined) ∧
    ("mainnet-fork" ∉ knownKeys ∧ "mainnet-fork" ∉ inheritedKeys ∧
      linkToken.get "mainnet-fork" = .ok .undefined) :=
  ⟨⟨by decide, by decide,
      ((linkToken_get_unknown "Mainnet").2 (by decide)).2 (by decide)⟩,
    ⟨by decide, by decide,
      ((linkToken_get_unknown "mainnet-fork").2 (by decide)).2 (by decide)⟩⟩

/-- C4 as stated fails: a deployer whose network is `constructor`, which is none
of the six keys, gets the call `deploy(Oracle, Object)`, whose second argument is
not `undefined`. -/
theorem migration_constructor_network_argument :
    "constructor" ∉ knownKeys ∧
    (migration (⟨"constructor", fun _ s => (.ok .undefined, s)⟩ : Deployer Unit)
        ⟨linkToken, (), []⟩).2.calls = [[Oracle, .intrinsic "Object"]] ∧
    (migration (⟨"constructor", fun _ s => (.ok .undefined, s)⟩ : Deployer Unit)
        ⟨linkToken, (), []⟩).2.calls ≠ [[Oracle, .undefined]] := by
  refine ⟨by decide, rfl, by decide⟩

/-- C4, amended: for a deployer whose network is none of the six known keys the
run does not fail fast; it makes exactly one `deploy` call whose first argument is
`Oracle`, and the second argument is `undefined` exactly when the network is not
the name of a property inherited from `Object.prototype`. -/
theorem migration_unknown_network {σ : Type} (d : Deployer σ) (s : σ)
    (cs : List (List JSVal)) (hk : d.network ∉ knownKeys) :
    (∃ v, (migration d ⟨linkToken, s, cs⟩).2.calls = cs ++ [[Oracle, v]]) ∧
    ((migration d ⟨linkToken, s, cs⟩).2.calls = cs ++ [[Oracle, .undefined]] ↔
      d.network ∉ inheritedKeys) := by
  obtain ⟨v, hv⟩ := get_ok linkToken d.network
  have hcalls := migration_calls d s cs v hv
  refine ⟨⟨v, hcalls⟩, ?_⟩
  rw [hcalls, ← get_unknown_iff d.network hk, hv]
  constructor
  · intro h
    have h' := List.append_cancel_left h
    simp only [List.cons.injEq, and_true, true_and] at h'
    rw [h']
  · intro h
    simp only [Except.ok.injEq] at h
    rw [h]

/-- C4, amended, at the network `unknown_net` with a `deploy` that succeeds: the
only call is `deploy(Oracle, undefined)`. -/
theorem migration_unknown_network_witness :
    "unknown_net" ∉ knownKeys ∧ "unknown_net" ∉ inheritedKeys ∧
    (migration (⟨"unknown_net", fun _ s => (.ok (.foreign 0), s)⟩ : Deployer Unit)
        ⟨linkToken, (), []⟩).2.calls = [] ++ [[Oracle, .undefined]] :=
  ⟨by decide, by decide,
    ((migration_unknown_network
        (⟨"unknown_net", fun _ s => (.ok (.foreign 0), s)⟩ : Deployer Unit) () []
        (by decide)).2).2 (by decide)⟩

/-- C5: the table stores six values and each is a well-formed address string: 42
characters, starting with `0x`, followed by forty hexadecimal digits. -/
theorem linkToken_values_well_formed :
    linkToken.props.length = 6 ∧
    ∀ p ∈ linkToken.props, ∃ a, p.2 = .string a ∧ wellFormedAddress a = true := by
  refine ⟨rfl, ?_⟩
  intro p hp
  simp only [linkToken, List.mem_cons, List.mem_singleton, List.not_mem_nil, or_false] at hp
  rcases hp with rfl | rfl | rfl | rfl | rfl | rfl <;> exact ⟨_, rfl, by decide⟩

/-- C6: a run of the exported function throws exactly when its `deploy` call
throws, and then it throws the very value `deploy` threw; this holds for every
network, so a lookup miss never makes the run fail. -/
theorem migration_throws_iff_deploy_throws {σ : Type} (d : Deployer σ) (s : σ)
    (cs : List (List JSVal)) :
    ∃ v, linkToken.get d.network = .ok v ∧
      ∀ e, (migration d ⟨linkToken, s, cs⟩).1 = .error e ↔
        (d.deploy [Oracle, v] s).1 = .error e := by
  obtain ⟨v, hv⟩ := get_ok linkToken d.network
  refine ⟨v, hv, ?_⟩
  intro e
  rw [migration_result d s cs v hv]
  cases (d.deploy [Oracle, v] s).1 with
  | error e' => simp
  | ok r => simp

/-- C7 as stated fails. A `deploy` call can write to `Object.prototype`, which
the run hands to it on network `__proto__`: after one such run the lookup of `foo`
no longer gives `undefined` but `"x"`. And once a run has defined an accessor `bar`
there, a later run on network `bar` reads through its getter, which receives the
table and rebinds `mainnet`: the table after that run differs from the literal. -/
theorem linkToken_lookup_changed_by_runs :
    (loaded () [] : World (Prototype × Unit)).read "foo" = .ok .undefined ∧
    (runs [prototypeWriter] (loaded () [])).read "foo" = .ok (.string "x") ∧
    (runs [getterInstaller] (loaded () [])).linkToken = linkToken ∧
    (runs [getterInstaller, quietDeployer "bar"] (loaded () [])).linkToken ≠ linkToken ∧
    (runs [getterInstaller, quietDeployer "bar"] (loaded () [])).linkToken.get "mainnet" =
      .ok (.string "0x0") := by
  refine ⟨rfl, rfl, rfl, by decide, rfl⟩

/-- C7, amended: one run of the exported function from the module as loaded, with
any deployer on any network, leaves the `linkToken` table with the same six keys
bound to the same six values, and the lookup of each of the six known identifiers
gives the same result before and after it. For any number of runs whose `deploy`
calls leave `Object.prototype` as loaded, the table and the prototype stay as they
were, so the lookup of every identifier gives the same result before and after. -/
theorem linkToken_never_mutated {σ : Type} (d : Deployer (Prototype × σ))
    (ds : List (Deployer (Prototype × σ))) (s : σ) (cs : List (List JSVal))
    (h : ∀ d' ∈ ds, ∀ args t,
      (d'.deploy args (loadedPrototype, t)).2.1 = loadedPrototype) :
    ((migrationIn d (loaded s cs)).2.linkToken = linkToken ∧
      ∀ k ∈ knownKeys, (migrationIn d (loaded s cs)).2.read k = (loaded s cs).read k) ∧
    ((runs ds (loaded s cs)).linkToken = linkToken ∧
      (runs ds (loaded s cs)).ext.1 = loadedPrototype ∧
      ∀ k, (runs ds (loaded s cs)).read k = (loaded s cs).read k) := by
  have hone : (migrationIn d (loaded s cs)).2.linkToken = linkToken := by
    rw [migrationIn_loaded d (loaded s cs) rfl, migration_linkToken]
    rfl
  have hruns := runs_loaded ds h (loaded s cs) rfl rfl
  refine ⟨⟨hone, ?_⟩, hruns.1, hruns.2, ?_⟩
  · intro k hk
    have hafter := getIn_known (migrationIn d (loaded s cs)).2.ext.1 k hk
    have hbefore := getIn_known (loaded s cs).ext.1 k hk
    unfold World.read
    rw [hone, hafter]
    exact (congrArg Prod.fst hbefore).symm
  · intro k
    unfold World.read
    rw [hruns.1, hruns.2]
    rfl

/-- C7, amended, at concrete deployers: one run with a deployer that writes to
`Object.prototype` keeps the table and the lookup of `mainnet`; two runs, on
`kovan` and on an unknown network with a `deploy` that throws, leave
`Object.prototype` alone and keep the table and the lookup of `foo`. -/
theorem linkToken_never_mutated_witness :
    (∀ d' ∈ [quietDeployer "kovan",
        (⟨"unknown_net", fun _ st => (.error (.foreign 2), st)⟩ : Deployer (Prototype × Unit))],
      ∀ args t, (d'.deploy args (loadedPrototype, t)).2.1 = loadedPrototype) ∧
    (migrationIn prototypeWriter (loaded () [])).2.linkToken = linkToken ∧
    (migrationIn prototypeWriter (loaded () [])).2.read "mainnet" =
      .ok (.string "0x514910771AF9Ca656af840dff83E8264EcF986CA") ∧
    (runs [quietDeployer "kovan",
        (⟨"unknown_net", fun _ st => (.error (.foreign 2), st)⟩ : Deployer (Prototype × Unit))]
      (loaded () [])).linkToken = linkToken ∧
    (runs [quietDeployer "kovan",
        (⟨"unknown_net", fun _ st => (.error (.foreign 2), st)⟩ : Deployer (Prototype × Unit))]
      (loaded () [])).read "foo" = .ok .undefined := by
  have hq : ∀ d' ∈ [quietDeployer "kovan",
        (⟨"unknown_net", fun _ st => (.error (.foreign 2), st)⟩ : Deployer (Prototype × Unit))],
      ∀ args t, (d'.deploy args (loadedPrototype, t)).2.1 = loadedPrototype := by
    intro d' hd' args t
    simp only [List.mem_cons, List.mem_singleton, List.not_mem_nil, or_false] at hd'
    rcases hd' with rfl | rfl <;> rfl
  have hthm := linkToken_never_mutated prototypeWriter _ () [] hq
  exact ⟨hq, hthm.1.1, (hthm.1.2 "mainnet" (by decide)).trans rfl, hthm.2.1,
    (hthm.2.2.2 "foo").trans rfl⟩

/-- C8: deployers on `development`, on `test` and on `mainnet` all get the call
`deploy(Oracle, "0x514910771AF9Ca656af840dff83E8264EcF986CA")`: the three keys
resolve to one and the same address. -/
theorem development_test_mainnet_same_argument {σ : Type}
    (deployDev deployTest deployMain : List JSVal → σ → Except JSVal JSVal × σ)
    (s : σ) (cs : List (List JSVal)) :
    (migration ⟨"development", deployDev⟩ ⟨linkToken, s, cs⟩).2.calls =
      cs ++ [[Oracle, .string "0x514910771AF9Ca656af840dff83E8264EcF986CA"]] ∧
    (migration ⟨"test", deployTest⟩ ⟨linkToken, s, cs⟩).2.calls =
      cs ++ [[Oracle, .string "0x514910771AF9Ca656af840dff83E8264EcF986CA"]] ∧
    (migration ⟨"mainnet", deployMain⟩ ⟨linkToken, s, cs⟩).2.calls =
      cs ++ [[Oracle, .string "0x514910771AF9Ca656af840dff83E8264EcF986CA"]] :=
  ⟨migration_calls ⟨"development", deployDev⟩ s cs _ rfl,
    migration_calls ⟨"test", deployTest⟩ s cs _ rfl,
    migration_calls ⟨"mainnet", deployMain⟩ s cs _ rfl⟩

/-- C9: whatever value the `deploy` call returns, the exported function returns
`undefined`; the value produced by `deploy` is dropped. -/
theorem migration_returns_undefined {σ : Type} (d : Deployer σ) (s : σ)
    (cs : List (List JSVal)) (v r : JSVal) (hv : linkToken.get d.network = .ok v)
    (hr : (d.deploy [Oracle, v] s).1 = .ok r) :
    (migration d ⟨linkToken, s, cs⟩).1 = .ok .undefined := by
  rw [migration_result d s cs v hv, hr]

/-- C9 at a `kovan` deployer whose `deploy` returns a handle: the handle is not
`undefined`, and the exported function returns `undefined`. -/
theorem migration_returns_undefined_witness :
    JSVal.foreign 7 ≠ JSVal.undefined ∧
    (migration (⟨"kovan", fun _ s => (.ok (.foreign 7), s)⟩ : Deployer Unit)
        ⟨linkToken, (), []⟩).1 = .ok .undefined :=
  ⟨by decide,
    migration_returns_undefined
      (⟨"kovan", fun _ s => (.ok (.foreign 7), s)⟩ : Deployer Unit) () []
      (.string "0xa36085F69e2889c224210F603D836748e7dC0088") (.foreign 7) rfl rfl⟩

/-- C10: the table holds exactly four distinct addresses; two known identifiers
resolve to the same address exactly when they are equal or both among
`development`, `test`, `mainnet`; and none of `ropsten`, `rinkeby`, `kovan`
resolves to the mainnet address. -/
theorem linkToken_four_distinct_addresses :
    (linkToken.props.map Prod.snd).dedup.length = 4 ∧
    (∀ a ∈ knownKeys, ∀ b ∈ knownKeys,
      (linkToken.get a = linkToken.get b ↔
        (a = b ∨ (a ∈ ["development", "test", "mainnet"] ∧
                  b ∈ ["development", "test", "mainnet"])))) ∧
    linkToken.get "ropsten" ≠ linkToken.get "mainnet" ∧
    linkToken.get "rinkeby" ≠ linkToken.get "mainnet" ∧
    linkToken.get "kovan" ≠ linkToken.get "mainnet" := by
  refine ⟨by decide, by decide, by decide, by decide, by decide⟩

end Migration
